import Mathlib

/-!
Verification of the Pyroscope demo diagnostic scripts.

Shallow embedding of the classification core of the repository:
`scripts/lib/bottleneck.py` (threshold override parsing, per-service
bottleneck resolution, report ordering, summary counts),
`scripts/lib/jvm_health.py` (Mode A multi-metric health evaluation) and
`scripts/lib/parse_flamegraph.py` (flamebearer self-time decoding).

Python floats are modelled as exact rationals (`ℚ`); the numeric
comparisons in the scripts are threshold tests whose logic does not
depend on binary rounding.  Python dicts returned by the external
`prom_instant` query are modelled as association lists with
first-match lookup.  The Python builtin `float` is external to the
repository, so `parse_thresholds` is parameterised over it; a concrete
decimal-literal instance `pyFloat` is provided for witnesses.
-/

/-- Accumulator loop for `pyTokens`: `acc` is the current token read
so far, in reverse. -/
def pyTokensAux : List Char → List Char → List (List Char)
  | [], acc => if acc = [] then [] else [acc.reverse]
  | c :: rest, acc =>
    if c.isWhitespace then
      if acc = [] then pyTokensAux rest []
      else acc.reverse :: pyTokensAux rest []
    else pyTokensAux rest (c :: acc)

/-- Model of Python `str.split()` (whitespace-separated tokens, empty
tokens dropped, leading/trailing whitespace ignored, which also
subsumes the preceding `.strip()`), on the character list of the
string. -/
def pyTokens (cs : List Char) : List (List Char) :=
  pyTokensAux cs []

/-- Model of Python `tok.split("=", 1)` guarded by `"=" in tok`:
`none` when the token holds no `=`, otherwise the parts before and
after the first `=`. -/
def splitEq : List Char → Option (List Char × List Char)
  | [] => none
  | c :: rest =>
    if c = '=' then some ([], rest)
    else match splitEq rest with
      | some (k, v) => some (c :: k, v)
      | none => none

/-- The six threshold keys of `DEFAULT_THRESHOLDS` in
`scripts/lib/bottleneck.py` (lines 30-37). -/
structure Thresholds where
  cpu : ℚ
  heap_pct : ℚ
  gc : ℚ
  threads : ℚ
  err_pct : ℚ
  latency_ms : ℚ
deriving DecidableEq

/-- `DEFAULT_THRESHOLDS` of `scripts/lib/bottleneck.py`. -/
def DEFAULT_THRESHOLDS : Thresholds :=
  { cpu := 0.3, heap_pct := 0.75, gc := 0.03
    threads := 60, err_pct := 2.0, latency_ms := 500 }

/-- The key set of the thresholds dict (membership test `k in thresholds`;
the dict only ever updates existing keys, so its key set is fixed). -/
def thresholdKeys : List String :=
  ["cpu", "heap_pct", "gc", "threads", "err_pct", "latency_ms"]

/-- Update of the thresholds dict at one of its six keys
(`thresholds[k] = float(v)`); other keys leave it unchanged. -/
def setThreshold (t : Thresholds) (k : String) (v : ℚ) : Thresholds :=
  if k = "cpu" then { t with cpu := v }
  else if k = "heap_pct" then { t with heap_pct := v }
  else if k = "gc" then { t with gc := v }
  else if k = "threads" then { t with threads := v }
  else if k = "err_pct" then { t with err_pct := v }
  else if k = "latency_ms" then { t with latency_ms := v }
  else t

/-- Read of the thresholds dict at one of its six keys. -/
def getThreshold (t : Thresholds) (k : String) : ℚ :=
  if k = "cpu" then t.cpu
  else if k = "heap_pct" then t.heap_pct
  else if k = "gc" then t.gc
  else if k = "threads" then t.threads
  else if k = "err_pct" then t.err_pct
  else if k = "latency_ms" then t.latency_ms
  else 0

instance {ε α : Type} [DecidableEq ε] [DecidableEq α] :
    DecidableEq (Except ε α)
  | .ok a, .ok b => decidable_of_iff (a = b) (by simp)
  | .error e, .error f => decidable_of_iff (e = f) (by simp)
  | .ok _, .error _ => .isFalse (by simp)
  | .error _, .ok _ => .isFalse (by simp)

/-- Leading and trailing whitespace removal on a character list (the
builtin `float` also accepts surrounding whitespace). -/
def trimWs (cs : List Char) : List Char :=
  ((cs.dropWhile Char.isWhitespace).reverse.dropWhile Char.isWhitespace).reverse

/-- Value of a digit list (already checked to be all digits). -/
def digitsVal (cs : List Char) : ℕ :=
  cs.foldl (fun a c => a * 10 + (c.toNat - 48)) 0

/-- Concrete model of the decimal-literal subset of the Python builtin
`float` (optional sign, digits, optional fraction; no exponent, `inf`
or `nan` — the builtin is external to the repository and only a
concrete instance is needed for witnesses): `none` models `float`
raising `ValueError`. -/
def pyFloat (s : String) : Option ℚ :=
  let cs := trimWs s.data
  let signed : ℚ × List Char :=
    match cs with
    | '-' :: rest => (-1, rest)
    | '+' :: rest => (1, rest)
    | cs => (1, cs)
  let intPart := signed.2.takeWhile Char.isDigit
  let rest := signed.2.dropWhile Char.isDigit
  match rest with
  | [] =>
    if intPart = [] then none
    else some (signed.1 * (digitsVal intPart : ℚ))
  | '.' :: frac =>
    if frac.all Char.isDigit ∧ (intPart ≠ [] ∨ frac ≠ []) then
      some (signed.1 *
        ((digitsVal intPart : ℚ) + (digitsVal frac : ℚ) / (10 ^ frac.length)))
    else none
  | _ => none

/-- Processing of one token of the override string
(`scripts/lib/bottleneck.py` lines 43-46): tokens without `=` are
skipped; for a token `k=v`, the value is parsed by `float` only when
`k` is a known key, and a parse failure aborts with the error
(`ValueError`) of the builtin. -/
def applyTok (pf : String → Option ℚ) (th : Thresholds) (tok : List Char) :
    Except String Thresholds :=
  match splitEq tok with
  | none => .ok th
  | some (k, v) =>
    if String.mk k ∈ thresholdKeys then
      match pf (String.mk v) with
      | some x => .ok (setThreshold th (String.mk k) x)
      | none => .error ("could not convert string to float: " ++ String.mk v)
    else .ok th

/-- Embedding of `parse_thresholds` (`scripts/lib/bottleneck.py` lines
40-47), parameterised over the external `float` builtin `pf`. -/
def parse_thresholds (pf : String → Option ℚ) (threshold_str : String) :
    Except String Thresholds :=
  (pyTokens threshold_str.data).foldlM (applyTok pf) DEFAULT_THRESHOLDS

/-- A token is fatal when it holds an `=`, its key is one of the six
known threshold keys, and its value fails numeric parsing. -/
def fatalTok (pf : String → Option ℚ) (tok : List Char) : Prop :=
  ∃ k v, splitEq tok = some (k, v) ∧ String.mk k ∈ thresholdKeys ∧
    pf (String.mk v) = none

instance (pf : String → Option ℚ) (tok : List Char) :
    Decidable (fatalTok pf tok) := by
  unfold fatalTok
  match h : splitEq tok with
  | none => exact .isFalse (by simp [h])
  | some (k, v) =>
    refine decidable_of_iff
      (String.mk k ∈ thresholdKeys ∧ pf (String.mk v) = none) ?_
    constructor
    · rintro ⟨h1, h2⟩
      exact ⟨k, v, rfl, h1, h2⟩
    · rintro ⟨k1, v1, h', h1, h2⟩
      obtain ⟨rfl, rfl⟩ : k = k1 ∧ v = v1 := by simpa using h'
      exact ⟨h1, h2⟩

/-- A token names a known threshold key when it holds an `=` and the
part before the first `=` is one of the six keys. -/
def tokKnown (tok : List Char) : Prop :=
  ∃ k v, splitEq tok = some (k, v) ∧ String.mk k ∈ thresholdKeys

instance (tok : List Char) : Decidable (tokKnown tok) := by
  unfold tokKnown
  match h : splitEq tok with
  | none => exact .isFalse (by simp [h])
  | some (k, v) =>
    refine decidable_of_iff (String.mk k ∈ thresholdKeys) ?_
    constructor
    · intro h1
      exact ⟨k, v, rfl, h1⟩
    · rintro ⟨k1, v1, h', h1⟩
      obtain ⟨rfl, rfl⟩ : k = k1 ∧ v = v1 := by simpa using h'
      exact h1

/-- A token addresses the given threshold key. -/
def tokSets (key : String) (tok : List Char) : Prop :=
  ∃ k v, splitEq tok = some (k, v) ∧ String.mk k = key

instance (key : String) (tok : List Char) : Decidable (tokSets key tok) := by
  unfold tokSets
  match h : splitEq tok with
  | none => exact .isFalse (by simp [h])
  | some (k, v) =>
    refine decidable_of_iff (String.mk k = key) ?_
    constructor
    · intro h1
      exact ⟨k, v, rfl, h1⟩
    · rintro ⟨k1, v1, h', h1⟩
      obtain ⟨rfl, rfl⟩ : k = k1 ∧ v = v1 := by simpa using h'
      exact h1

/-- A hotspot entry as returned by the external profiling query after
the conversion in `_pyro_top` (`scripts/lib/bottleneck.py` lines
152-157). -/
structure PyroFn where
  function : String
  self_pct : ℚ
deriving DecidableEq

/-- The nine instant-query snapshots fetched at the top of `analyze`
(`scripts/lib/bottleneck.py` lines 51-59); each is a Python dict
`entity ↦ float`, modelled as an association list with first-match
lookup. -/
structure Snapshots where
  cpu : List (String × ℚ)
  heap_used : List (String × ℚ)
  heap_max : List (String × ℚ)
  gc : List (String × ℚ)
  threads : List (String × ℚ)
  req_rate : List (String × ℚ)
  err_rate : List (String × ℚ)
  lat_sum : List (String × ℚ)
  lat_count : List (String × ℚ)

/-- The three per-service hotspot lists obtained from `_pyro_top`
(`scripts/lib/bottleneck.py` lines 85-87); the profiling backend is an
external collaborator, so these are inputs. -/
structure ProfileTops where
  cpu_top : List PyroFn
  mem_top : List PyroFn
  mutex_top : List PyroFn
deriving DecidableEq

/-- First-match lookup in an association list (Python dict access). -/
def dlookup {α : Type} : List (String × α) → String → Option α
  | [], _ => none
  | (k, v) :: rest, key => if key = k then some v else dlookup rest key

/-- Python `m.get(key, 0)`. -/
def dget (m : List (String × ℚ)) (key : String) : ℚ :=
  (dlookup m key).getD 0

/-- Python `m.get(k1, m.get(k2, 0))` (instance-string fallback of
`scripts/lib/bottleneck.py` lines 77-80). -/
def dget2 (m : List (String × ℚ)) (k1 k2 : String) : ℚ :=
  match dlookup m k1 with
  | some v => v
  | none => dget m k2

/-- Python `int()` truncation toward zero on a rational. -/
def pyInt (q : ℚ) : ℤ := q.num.tdiv q.den

/-- Signal classification of `scripts/lib/bottleneck.py` lines 90-100:
the five checks run in this fixed order and append
`(kind, magnitude, supporting hotspots)` tuples; the io-bound check
additionally requires the signal list to still be empty. -/
def signalsOf (th : Thresholds) (c hp g avg_lat : ℚ)
    (cpu_top mem_top mutex_top : List PyroFn) :
    List (String × ℚ × List PyroFn) :=
  let signals : List (String × ℚ × List PyroFn) := []
  let signals := if c ≥ th.cpu then signals ++ [("cpu-bound", c, cpu_top)] else signals
  let signals := if g ≥ th.gc then signals ++ [("gc-bound", g, mem_top)] else signals
  let signals := if hp ≥ th.heap_pct then signals ++ [("memory-pressure", hp, mem_top)] else signals
  let signals :=
    match mutex_top with
    | [] => signals
    | m0 :: _ =>
      if m0.self_pct > 5 then signals ++ [("lock-bound", m0.self_pct, mutex_top)] else signals
  if avg_lat > th.latency_ms ∧ signals = [] then
    signals ++ [("io-bound", avg_lat, [])]
  else signals

/-- One per-service result dict of `analyze`
(`scripts/lib/bottleneck.py` lines 126-145).  The `metrics` sub-dict
is flattened into fields; its `round(x, k)` calls and the `action`
template strings are display-only formatting and are not modelled —
classification uses the unrounded values. -/
structure SvcResult where
  service : String
  pyroscope_name : String
  verdict : String
  severity : String
  cpu_rate : ℚ
  heap_pct : ℚ
  gc_rate : ℚ
  threads : ℤ
  req_per_sec : ℚ
  err_pct : ℚ
  avg_latency_ms : ℚ
  top_cpu : List PyroFn
  top_alloc : List PyroFn
  top_mutex : List PyroFn
  primary_function : Option String
deriving DecidableEq

/-- Derived metric `hp = hu / hm if hm > 0 else 0`
(`scripts/lib/bottleneck.py` lines 70-72). -/
def heapPctOf (snap : Snapshots) (svc : String) : ℚ :=
  let hu := dget snap.heap_used svc
  let hm := dget snap.heap_max svc
  if hm > 0 then hu / hm else 0

/-- Derived metric `avg_lat = (ls / lc * 1000) if lc > 0 else 0`
(`scripts/lib/bottleneck.py` lines 76-81). -/
def avgLatOf (snap : Snapshots) (svc : String) : ℚ :=
  let inst := svc ++ ":8080"
  let ls := dget2 snap.lat_sum inst svc
  let lc := dget2 snap.lat_count inst svc
  if lc > 0 then ls / lc * 1000 else 0

/-- Derived metric `err_pct = (er / rr * 100) if rr > 0 else 0`
(`scripts/lib/bottleneck.py` lines 76-82). -/
def errPctOf (snap : Snapshots) (svc : String) : ℚ :=
  let inst := svc ++ ":8080"
  let rr := dget2 snap.req_rate inst svc
  let er := dget2 snap.err_rate inst svc
  if rr > 0 then er / rr * 100 else 0

/-- The signal list built for one service (`scripts/lib/bottleneck.py`
lines 90-100, with the derived metrics of lines 69-87 plugged in). -/
def serviceSignals (th : Thresholds) (snap : Snapshots) (tops : ProfileTops)
    (svc : String) : List (String × ℚ × List PyroFn) :=
  signalsOf th (dget snap.cpu svc) (heapPctOf snap svc) (dget snap.gc svc)
    (avgLatOf snap svc) tops.cpu_top tops.mem_top tops.mutex_top

/-- The per-service body of the `for svc in services` loop of `analyze`
(`scripts/lib/bottleneck.py` lines 67-145).  `svcMap` is the external
`SVC_MAP.get(svc, svc)` display-name mapping from the out-of-scope
`api` module. -/
def analyzeService (th : Thresholds) (snap : Snapshots) (tops : ProfileTops)
    (svcMap : String → String) (svc : String) : SvcResult :=
  let c := dget snap.cpu svc
  let hp := heapPctOf snap svc
  let g := dget snap.gc svc
  let t := pyInt (dget snap.threads svc)
  let rr := dget2 snap.req_rate (svc ++ ":8080") svc
  let avg_lat := avgLatOf snap svc
  let ep := errPctOf snap svc
  match serviceSignals th snap tops svc with
  | [] =>
    { service := svc, pyroscope_name := svcMap svc
      verdict := "healthy", severity := "ok"
      cpu_rate := c, heap_pct := hp, gc_rate := g, threads := t
      req_per_sec := rr, err_pct := ep, avg_latency_ms := avg_lat
      top_cpu := tops.cpu_top.take 1, top_alloc := tops.mem_top.take 1
      top_mutex := tops.mutex_top.take 1
      primary_function := none }
  | primary :: _ =>
    { service := svc, pyroscope_name := svcMap svc
      verdict := primary.1
      severity := if c ≥ 0.8 ∨ hp ≥ 0.85 ∨ g ≥ 0.1 then "critical" else "warning"
      cpu_rate := c, heap_pct := hp, gc_rate := g, threads := t
      req_per_sec := rr, err_pct := ep, avg_latency_ms := avg_lat
      top_cpu := tops.cpu_top.take 1, top_alloc := tops.mem_top.take 1
      top_mutex := tops.mutex_top.take 1
      primary_function := (primary.2.2).head?.map PyroFn.function }

/-- Rank table of the report ordering, bottleneck vocabulary
(`order.get(r["severity"], 9)`, `scripts/lib/bottleneck.py` line 147). -/
def rankOf (sev : String) : ℕ :=
  if sev = "critical" then 0
  else if sev = "warning" then 1
  else if sev = "ok" then 2
  else 9

/-- Rank table of the report ordering, health-evaluator vocabulary
(`order.get(r["severity"], 9)`, `scripts/lib/jvm_health.py` line 113). -/
def rankOfH (sev : String) : ℕ :=
  if sev = "CRITICAL" then 0
  else if sev = "WARNING" then 1
  else if sev = "OK" then 2
  else 9

/-- Strict lexicographic comparison of character lists by code point
(Python string `<`). -/
def strLtb : List Char → List Char → Bool
  | [], [] => false
  | [], _ :: _ => true
  | _ :: _, [] => false
  | a :: as, b :: bs =>
    if a.toNat < b.toNat then true
    else if b.toNat < a.toNat then false
    else strLtb as bs

/-- Python tuple-key comparison `(rank, service) ≤ (rank, service)`:
first component numeric, second lexicographic. -/
def keyLe (a b : ℕ × List Char) : Bool :=
  if a.1 < b.1 then true
  else if b.1 < a.1 then false
  else !(strLtb b.2 a.2)

/-- Sort key of `scripts/lib/bottleneck.py` line 148. -/
def resKey (r : SvcResult) : ℕ × List Char := (rankOf r.severity, r.service.data)

/-- Comparison used by the report ordering of the bottleneck resolver. -/
def resLe (a b : SvcResult) : Bool := keyLe (resKey a) (resKey b)

/-- Report ordering (`results.sort(key=...)`,
`scripts/lib/bottleneck.py` lines 147-148): Python `list.sort` is a
stable sort by the key, modelled by the stable `List.mergeSort`. -/
def sortResults (rs : List SvcResult) : List SvcResult := rs.mergeSort resLe

/-- Python `sorted` on strings (code-point lexicographic). -/
def sortedStrings (l : List String) : List String :=
  l.mergeSort fun a b => !(strLtb b.data a.data)

/-- The whole of `analyze` on the unfiltered path
(`scripts/lib/bottleneck.py` lines 61-149): services are the sorted
distinct keys of the cpu snapshot (`sorted(set(cpu.keys()))`); each is
classified and the results are sorted.  The `--service` filter branch
only restricts this list through the external `REVERSE_MAP` and is not
modelled. -/
def analyze (th : Thresholds) (snap : Snapshots) (tops : String → ProfileTops)
    (svcMap : String → String) : List SvcResult :=
  let services := sortedStrings (snap.cpu.map Prod.fst).eraseDups
  sortResults (services.map fun svc => analyzeService th snap (tops svc) svcMap svc)

/-- Summary count of critical services (`scripts/lib/bottleneck.py`
line 234). -/
def summaryCritical (rs : List SvcResult) : ℕ :=
  rs.countP fun r => r.severity == "critical"

/-- Summary count of warning services (`scripts/lib/bottleneck.py`
line 235). -/
def summaryWarning (rs : List SvcResult) : ℕ :=
  rs.countP fun r => r.severity == "warning"

/-- Summary count of healthy services (`scripts/lib/bottleneck.py`
line 236; note this one filters on the verdict, not the severity). -/
def summaryHealthy (rs : List SvcResult) : ℕ :=
  rs.countP fun r => r.verdict == "healthy"

/-- A warn/crit cutoff pair of the `THRESHOLDS` table in
`scripts/lib/jvm_health.py` (lines 18-23). -/
structure WarnCrit where
  warn : ℚ
  crit : ℚ

/-- `THRESHOLDS["cpu_rate"]` of `scripts/lib/jvm_health.py`. -/
def healthCpuT : WarnCrit := { warn := 0.5, crit := 0.8 }

/-- `THRESHOLDS["heap_pct"]` of `scripts/lib/jvm_health.py`. -/
def healthHeapT : WarnCrit := { warn := 0.70, crit := 0.85 }

/-- `THRESHOLDS["gc_rate"]` of `scripts/lib/jvm_health.py`. -/
def healthGcT : WarnCrit := { warn := 0.03, crit := 0.10 }

/-- `THRESHOLDS["threads"]` of `scripts/lib/jvm_health.py`. -/
def healthThreadsT : WarnCrit := { warn := 50, crit := 100 }

/-- One crit-first/warn-second check block of `scripts/lib/jvm_health.py`
(each of lines 67-71, 77-81, 85-89, 93-97 appends to `issues` in this
shape).  An issue is modelled as `(level, metric tag)`; the message
text interpolating the metric value is display-only formatting and is
not modelled. -/
def checkMetric (v : ℚ) (t : WarnCrit) (tag : String) : List (String × String) :=
  if v ≥ t.crit then [("CRITICAL", tag)]
  else if v ≥ t.warn then [("WARNING", tag)]
  else []

/-- The heap-percent map of `scripts/lib/jvm_health.py` lines 45-48
followed by the `heap_pct.get(svc, 0)` read on line 73: an entry
exists only when the service is in both heap maps and the max is
positive. -/
def healthHeapPct (heap_used heap_max : List (String × ℚ)) (svc : String) : ℚ :=
  match dlookup heap_used svc, dlookup heap_max svc with
  | some hu, some hm => if hm > 0 then hu / hm else 0
  | _, _ => 0

/-- The issue list built for one service by `scripts/lib/jvm_health.py`
lines 62-97: the four metrics are checked independently, in order
cpu, heap, gc, threads, each appending at most one issue. -/
def evalIssues (cpu hp gc th : ℚ) : List (String × String) :=
  checkMetric cpu healthCpuT "cpu" ++ checkMetric hp healthHeapT "heap"
    ++ checkMetric gc healthGcT "gc" ++ checkMetric th healthThreadsT "threads"

/-- Aggregate severity of `scripts/lib/jvm_health.py` lines 99-103:
CRITICAL if any issue is CRITICAL, else WARNING if any issue is
WARNING, else OK. -/
def healthSeverity (issues : List (String × String)) : String :=
  if issues.any fun i => i.1 == "CRITICAL" then "CRITICAL"
  else if issues.any fun i => i.1 == "WARNING" then "WARNING"
  else "OK"

/-- One per-service result of `scripts/lib/jvm_health.py` lines
105-111 (the `metrics` echo dict is the fetched values themselves and
is not repeated here). -/
structure HealthResult where
  service : String
  severity : String
  issues : List (String × String)
deriving DecidableEq

/-- Per-service evaluation of `scripts/lib/jvm_health.py` lines 61-111
as a function of the fetched snapshots. -/
def evalService (cpu_rate heap_used heap_max gc_rate threads : List (String × ℚ))
    (svc : String) : HealthResult :=
  let cpu := dget cpu_rate svc
  let hp := healthHeapPct heap_used heap_max svc
  let gc := dget gc_rate svc
  let th := dget threads svc
  let issues := evalIssues cpu hp gc th
  { service := svc, severity := healthSeverity issues, issues := issues }

/-- Sort key of `scripts/lib/jvm_health.py` line 114 (same shape as the
bottleneck report ordering, with the upper-case vocabulary). -/
def hresKey (r : HealthResult) : ℕ × List Char := (rankOfH r.severity, r.service.data)

/-- Comparison used by the report ordering of the health evaluator. -/
def hresLe (a b : HealthResult) : Bool := keyLe (hresKey a) (hresKey b)

/-- Report ordering of `scripts/lib/jvm_health.py` lines 113-114. -/
def sortHealthResults (rs : List HealthResult) : List HealthResult :=
  rs.mergeSort hresLe

/-- Python dict write `m[k] = v` on a string-keyed accumulator
(replace the existing binding, else append). -/
def dset (m : List (String × ℕ)) (k : String) (v : ℕ) : List (String × ℕ) :=
  match m with
  | [] => [(k, v)]
  | (k1, v1) :: rest => if k1 = k then (k, v) :: rest else (k1, v1) :: dset rest k v

/-- Python `m.get(k, 0)` on the self-time accumulator. -/
def nget (m : List (String × ℕ)) (k : String) : ℕ :=
  (dlookup m k).getD 0

/-- The inner `while i + 3 < len(level)` walk of one stack level
(`scripts/lib/parse_flamegraph.py` lines 98-105): consume the flat
sequence in groups of 4 `(offset, total, self, nameIndex)` from index
0; whenever the name index is in range and the self value is positive,
add the self value to the accumulator under `names[nameIndex]`; stop
as soon as fewer than 4 entries remain (a trailing partial group is
dropped).  Flamebearer levels hold non-negative integers, modelled as
`ℕ`. -/
def procLevel (names : List String) : List (String × ℕ) → List ℕ → List (String × ℕ)
  | m, _o :: _t :: s :: n :: rest =>
    procLevel names
      (if n < names.length ∧ s > 0 then dset m (names.getD n "") (nget m (names.getD n "") + s) else m)
      rest
  | m, _ => m

/-- The whole self-time accumulation loop of
`scripts/lib/parse_flamegraph.py` lines 97-105 (`self_map`). -/
def selfMap (names : List String) (levels : List (List ℕ)) : List (String × ℕ) :=
  levels.foldl (procLevel names) []

/-- Specification-side description of the same quantity: the sum of
the self values of all complete groups of 4 in one level whose name
index resolves to the given name and whose self value is positive. -/
def groupSelfSum (names : List String) (nm : String) : List ℕ → ℕ
  | _o :: _t :: s :: n :: rest =>
    (if n < names.length ∧ s > 0 ∧ names.getD n "" = nm then s else 0)
      + groupSelfSum names nm rest
  | _ => 0

/-- Specification-side total: the per-level sums added over all levels. -/
def totalSelf (names : List String) (levels : List (List ℕ)) (nm : String) : ℕ :=
  (levels.map (groupSelfSum names nm)).sum

set_option maxHeartbeats 1000000

theorem signalsOf_kinds (th : Thresholds) (c hp g al : ℚ)
    (ct mt xt : List PyroFn) (x : String × ℚ × List PyroFn)
    (hx : x ∈ signalsOf th c hp g al ct mt xt) :
    x.1 = "cpu-bound" ∨ x.1 = "gc-bound" ∨ x.1 = "memory-pressure"
      ∨ x.1 = "lock-bound" ∨ x.1 = "io-bound" := by
  unfold signalsOf at hx
  rcases xt with _ | ⟨m0, rest⟩ <;> (repeat' split at hx) <;> aesop

theorem signalsOf_cpu_head (th : Thresholds) (c hp g al : ℚ)
    (ct mt xt : List PyroFn) (h : c ≥ th.cpu) :
    ∃ rest, signalsOf th c hp g al ct mt xt = ("cpu-bound", c, ct) :: rest := by
  simp only [signalsOf]
  rcases xt with _ | ⟨m0, mrest⟩ <;> split_ifs <;>
    first
      | exact ⟨_, by simp⟩
      | aesop

theorem signalsOf_io_head (th : Thresholds) (c hp g al : ℚ)
    (ct mt xt : List PyroFn) (p : String × ℚ × List PyroFn)
    (rest : List (String × ℚ × List PyroFn))
    (h : signalsOf th c hp g al ct mt xt = p :: rest) (hio : p.1 = "io-bound") :
    ¬ c ≥ th.cpu ∧ ¬ g ≥ th.gc ∧ ¬ hp ≥ th.heap_pct ∧
      (∀ m0 ∈ xt.head?, ¬ m0.self_pct > 5) ∧ al > th.latency_ms := by
  unfold signalsOf at h
  rcases xt with _ | ⟨m0, mrest⟩ <;> (repeat' split at h) <;> aesop

theorem analyzeService_verdict (th : Thresholds) (snap : Snapshots)
    (tops : ProfileTops) (svcMap : String → String) (svc : String) :
    (analyzeService th snap tops svcMap svc).verdict =
      match serviceSignals th snap tops svc with
      | [] => "healthy"
      | p :: _ => p.1 := by
  unfold analyzeService
  rcases h : serviceSignals th snap tops svc with _ | ⟨p, rest⟩ <;> simp [h]

theorem analyzeService_severity (th : Thresholds) (snap : Snapshots)
    (tops : ProfileTops) (svcMap : String → String) (svc : String) :
    (analyzeService th snap tops svcMap svc).severity =
      match serviceSignals th snap tops svc with
      | [] => "ok"
      | _ :: _ =>
        if dget snap.cpu svc ≥ 0.8 ∨ heapPctOf snap svc ≥ 0.85
            ∨ dget snap.gc svc ≥ 0.1
        then "critical" else "warning" := by
  unfold analyzeService
  rcases h : serviceSignals th snap tops svc with _ | ⟨p, rest⟩ <;> simp [h]

theorem analyzeService_heap_pct (th : Thresholds) (snap : Snapshots)
    (tops : ProfileTops) (svcMap : String → String) (svc : String) :
    (analyzeService th snap tops svcMap svc).heap_pct = heapPctOf snap svc := by
  unfold analyzeService
  rcases h : serviceSignals th snap tops svc with _ | ⟨p, rest⟩ <;> simp [h]

theorem analyzeService_err_pct (th : Thresholds) (snap : Snapshots)
    (tops : ProfileTops) (svcMap : String → String) (svc : String) :
    (analyzeService th snap tops svcMap svc).err_pct = errPctOf snap svc := by
  unfold analyzeService
  rcases h : serviceSignals th snap tops svc with _ | ⟨p, rest⟩ <;> simp [h]

theorem analyzeService_avg_latency (th : Thresholds) (snap : Snapshots)
    (tops : ProfileTops) (svcMap : String → String) (svc : String) :
    (analyzeService th snap tops svcMap svc).avg_latency_ms = avgLatOf snap svc := by
  unfold analyzeService
  rcases h : serviceSignals th snap tops svc with _ | ⟨p, rest⟩ <;> simp [h]

/-- C1: signals are detected in the fixed order cpu-bound, gc-bound,
memory-pressure, lock-bound, io-bound and the verdict is the first
recorded signal: whenever the cpu rate reaches the cpu cutoff and the
gc rate reaches the gc cutoff simultaneously, the verdict is
`cpu-bound` and never `gc-bound`, regardless of which magnitude is
larger. -/
theorem verdict_cpu_first (th : Thresholds) (snap : Snapshots)
    (tops : ProfileTops) (svcMap : String → String) (svc : String)
    (h1 : dget snap.cpu svc ≥ th.cpu) ( _h2 : dget snap.gc svc ≥ th.gc) :
    (analyzeService th snap tops svcMap svc).verdict = "cpu-bound" ∧
      (analyzeService th snap tops svcMap svc).verdict ≠ "gc-bound" := by
  obtain ⟨rest, hs⟩ := signalsOf_cpu_head th (dget snap.cpu svc) (heapPctOf snap svc)
    (dget snap.gc svc) (avgLatOf snap svc) tops.cpu_top tops.mem_top tops.mutex_top h1
  have hv := analyzeService_verdict th snap tops svcMap svc
  unfold serviceSignals at hv
  rw [hs] at hv
  simp only [] at hv
  refine ⟨hv, ?_⟩
  rw [hv]
  decide

/-- Witness for C1: a service with cpu rate 1 and gc rate 1 against
cutoffs 1 gets verdict `cpu-bound`. -/
theorem verdict_cpu_first_witness :
    (analyzeService ⟨1,1,1,1,1,1⟩ ⟨[("web",1)],[],[],[("web",1)],[],[],[],[],[]⟩
        ⟨[],[],[]⟩ (fun s => s) "web").verdict = "cpu-bound" ∧
      (analyzeService ⟨1,1,1,1,1,1⟩ ⟨[("web",1)],[],[],[("web",1)],[],[],[],[],[]⟩
        ⟨[],[],[]⟩ (fun s => s) "web").verdict ≠ "gc-bound" :=
  verdict_cpu_first _ _ _ _ _ (by decide) (by decide)

/-- C2: an `io-bound` verdict implies that none of the four earlier
signals fired (cpu, gc and heap below their cutoffs, top mutex hotspot
at most 5 percent) and that the average latency strictly exceeds the
latency cutoff. -/
theorem verdict_io_only_if_no_signal (th : Thresholds) (snap : Snapshots)
    (tops : ProfileTops) (svcMap : String → String) (svc : String)
    (h : (analyzeService th snap tops svcMap svc).verdict = "io-bound") :
    dget snap.cpu svc < th.cpu ∧ dget snap.gc svc < th.gc ∧
      heapPctOf snap svc < th.heap_pct ∧
      (∀ m0 ∈ tops.mutex_top.head?, m0.self_pct ≤ 5) ∧
      avgLatOf snap svc > th.latency_ms := by
  have hv := analyzeService_verdict th snap tops svcMap svc
  rw [h] at hv
  rcases hs : serviceSignals th snap tops svc with _ | ⟨p, rest⟩
  · rw [hs] at hv
    exact absurd hv (by decide)
  · rw [hs] at hv
    unfold serviceSignals at hs
    have := signalsOf_io_head th (dget snap.cpu svc) (heapPctOf snap svc)
      (dget snap.gc svc) (avgLatOf snap svc) tops.cpu_top tops.mem_top tops.mutex_top
      p rest hs hv.symm
    obtain ⟨hc, hg, hhp, hm, hal⟩ := this
    exact ⟨lt_of_not_ge hc, lt_of_not_ge hg, lt_of_not_ge hhp,
      fun m0 hm0 => le_of_not_gt (hm m0 hm0), hal⟩

/-- Witness for C2: a service whose only anomaly is a 1000 ms average
latency gets verdict `io-bound`, and the theorem yields its cpu and gc
rates below the cutoffs. -/
theorem verdict_io_only_if_no_signal_witness :
    dget (⟨[("web",0)],[],[],[],[],[],[("web",1)],[("web",1)],[("web",1)]⟩ : Snapshots).cpu "web" < (1 : ℚ) ∧
      dget (⟨[("web",0)],[],[],[],[],[],[("web",1)],[("web",1)],[("web",1)]⟩ : Snapshots).gc "web" < 1 := by
  have h := verdict_io_only_if_no_signal ⟨1,1,1,1,1,500⟩
    ⟨[("web",0)],[],[],[],[],[],[("web",1)],[("web",1)],[("web",1)]⟩
    ⟨[],[],[]⟩ (fun s => s) "web"
    (by simp +decide [analyzeService, serviceSignals, signalsOf, avgLatOf, heapPctOf,
      errPctOf, dget, dget2, dlookup, div_one])
  exact ⟨h.1, h.2.1⟩

/-- C3: for every service where some signal fired (verdict not
`healthy`), severity is computed independently of which signal won:
`critical` exactly when cpu rate is at least 0.8 or heap percent at
least 0.85 or gc rate at least 0.1, else `warning`. -/
theorem severity_independent_of_verdict (th : Thresholds) (snap : Snapshots)
    (tops : ProfileTops) (svcMap : String → String) (svc : String)
    (h : (analyzeService th snap tops svcMap svc).verdict ≠ "healthy") :
    (analyzeService th snap tops svcMap svc).severity =
      (if dget snap.cpu svc ≥ 0.8 ∨ heapPctOf snap svc ≥ 0.85
          ∨ dget snap.gc svc ≥ 0.1
       then "critical" else "warning") := by
  have hv := analyzeService_verdict th snap tops svcMap svc
  have hsev := analyzeService_severity th snap tops svcMap svc
  rcases hs : serviceSignals th snap tops svc with _ | ⟨p, rest⟩
  · rw [hs] at hv
    exact absurd hv h
  · rw [hs] at hsev
    exact hsev

/-- Witness for C3: with the cpu cutoff raised to 2, a service with
cpu rate 1 and average latency 1000 ms gets the verdict `io-bound`
yet severity `critical`, driven by the hardcoded 0.8 cpu line. -/
theorem severity_independent_of_verdict_witness :
    (analyzeService ⟨2,2,2,2,2,1⟩ ⟨[("web",1)],[],[],[],[],[],[],[("web",1)],[("web",1)]⟩
        ⟨[],[],[]⟩ (fun s => s) "web").severity = "critical" ∧
      (analyzeService ⟨2,2,2,2,2,1⟩ ⟨[("web",1)],[],[],[],[],[],[],[("web",1)],[("web",1)]⟩
        ⟨[],[],[]⟩ (fun s => s) "web").verdict = "io-bound" := by
  have h := severity_independent_of_verdict ⟨2,2,2,2,2,1⟩
    ⟨[("web",1)],[],[],[],[],[],[],[("web",1)],[("web",1)]⟩
    ⟨[],[],[]⟩ (fun s => s) "web"
    (by simp +decide [analyzeService, serviceSignals, signalsOf, avgLatOf, heapPctOf,
      errPctOf, dget, dget2, dlookup, div_one])
  constructor
  · rw [h]
    norm_num [dget, dlookup, heapPctOf]
  · simp +decide [analyzeService, serviceSignals, signalsOf, avgLatOf, heapPctOf,
      errPctOf, dget, dget2, dlookup, div_one]

/-- C4: every derived-ratio division is guarded by a zero default: a
zero or absent heap maximum gives heap percent 0 (both in the
bottleneck resolver and in the health evaluator), a zero (or absent,
hence zero) request rate gives error percent 0, and a zero (or
absent) latency count gives average latency 0; the guarded `if`
means no division is ever attempted on a zero denominator. -/
theorem derived_ratios_zero_guarded (th : Thresholds) (snap : Snapshots)
    (tops : ProfileTops) (svcMap : String → String) (svc : String) :
    ((dlookup snap.heap_max svc = none ∨ dget snap.heap_max svc = 0) →
      heapPctOf snap svc = 0 ∧ (analyzeService th snap tops svcMap svc).heap_pct = 0)
    ∧ (dget2 snap.req_rate (svc ++ ":8080") svc = 0 →
      errPctOf snap svc = 0 ∧ (analyzeService th snap tops svcMap svc).err_pct = 0)
    ∧ (dget2 snap.lat_count (svc ++ ":8080") svc = 0 →
      avgLatOf snap svc = 0 ∧ (analyzeService th snap tops svcMap svc).avg_latency_ms = 0)
    ∧ (∀ hu hm : List (String × ℚ), ∀ s : String,
        (dlookup hm s = none ∨ dget hm s = 0) → healthHeapPct hu hm s = 0) := by
  refine ⟨?_, ?_, ?_, ?_⟩
  · intro h
    have hz : dget snap.heap_max svc = 0 := by
      rcases h with h | h
      · simp [dget, h]
      · exact h
    have : heapPctOf snap svc = 0 := by
      unfold heapPctOf
      rw [hz]
      simp
    exact ⟨this, by rw [analyzeService_heap_pct]; exact this⟩
  · intro h
    have : errPctOf snap svc = 0 := by
      simp only [errPctOf]
      rw [h]
      simp
    exact ⟨this, by rw [analyzeService_err_pct]; exact this⟩
  · intro h
    have : avgLatOf snap svc = 0 := by
      simp only [avgLatOf]
      rw [h]
      simp
    exact ⟨this, by rw [analyzeService_avg_latency]; exact this⟩
  · intro hu hm s h
    unfold healthHeapPct
    rcases hl : dlookup hu s with _ | vu
    · rfl
    · rcases hl2 : dlookup hm s with _ | vm
      · rfl
      · have hz : vm = 0 := by
          rcases h with h | h
          · rw [hl2] at h; cases h
          · rw [dget, hl2] at h; simpa using h
        rw [hz]
        simp

/-- Witness for C4: with every snapshot empty (all metrics absent),
heap percent, error percent and average latency are all 0 and no
division occurs. -/
theorem derived_ratios_zero_guarded_witness :
    (heapPctOf ⟨[],[],[],[],[],[],[],[],[]⟩ "web" = 0 ∧
      (analyzeService ⟨1,1,1,1,1,1⟩ ⟨[],[],[],[],[],[],[],[],[]⟩
        ⟨[],[],[]⟩ (fun s => s) "web").heap_pct = 0) ∧
    (errPctOf ⟨[],[],[],[],[],[],[],[],[]⟩ "web" = 0) ∧
    (avgLatOf ⟨[],[],[],[],[],[],[],[],[]⟩ "web" = 0) ∧
    healthHeapPct [] [] "web" = 0 := by
  have h := derived_ratios_zero_guarded ⟨1,1,1,1,1,1⟩ ⟨[],[],[],[],[],[],[],[],[]⟩
    ⟨[],[],[]⟩ (fun s => s) "web"
  exact ⟨h.1 (Or.inl (by decide)), (h.2.1 (by decide)).1, (h.2.2.1 (by decide)).1,
    h.2.2.2 [] [] "web" (Or.inl (by decide))⟩

theorem nget_dset (m : List (String × ℕ)) (k nm : String) (v : ℕ) :
    nget (dset m k v) nm = if nm = k then v else nget m nm := by
  induction m with
  | nil => by_cases h : nm = k <;> simp [dset, nget, dlookup, h]
  | cons p rest ih =>
    obtain ⟨k1, v1⟩ := p
    by_cases h1 : k1 = k
    · subst h1
      by_cases h2 : nm = k1 <;> simp [dset, nget, dlookup, h2]
    · by_cases h2 : nm = k1
      · subst h2
        simp [dset, nget, dlookup, h1, Ne.symm h1]
      · simp only [dset, if_neg h1]
        simp [nget, dlookup, h2]
        exact ih

theorem nget_procLevel (names : List String) (lvl : List ℕ)
    (m : List (String × ℕ)) (nm : String) :
    nget (procLevel names m lvl) nm = nget m nm + groupSelfSum names nm lvl := by
  induction m, lvl using procLevel.induct names with
  | case1 m o t s n rest ih =>
    simp only [procLevel, groupSelfSum]
    rw [ih]
    by_cases h : n < names.length ∧ s > 0
    · rw [if_pos h, nget_dset]
      by_cases h2 : nm = names.getD n ""
      · rw [if_pos h2, if_pos ⟨h.1, h.2, h2.symm⟩, h2]
        omega
      · rw [if_neg h2, if_neg ?_]
        · omega
        · rintro ⟨_, _, hc⟩
          exact h2 hc.symm
    · rw [if_neg h, if_neg ?_]
      · omega
      · rintro ⟨ha, hb, _⟩
        exact h ⟨ha, hb⟩
  | case2 m lvl h =>
    rcases lvl with _ | ⟨a, _ | ⟨b, _ | ⟨c, _ | ⟨d, r⟩⟩⟩⟩ <;>
      simp [procLevel, groupSelfSum]

theorem nget_foldl (names : List String) (levels : List (List ℕ))
    (m : List (String × ℕ)) (nm : String) :
    nget (levels.foldl (procLevel names) m) nm =
      nget m nm + (levels.map (groupSelfSum names nm)).sum := by
  induction levels generalizing m with
  | nil => simp
  | cons lvl rest ih =>
    simp only [List.foldl_cons, List.map_cons, List.sum_cons]
    rw [ih, nget_procLevel]
    omega

/-- C5: the flamebearer decoder accumulates, for every function name,
the sum of the self values over all complete `(offset, total, self,
nameIndex)` groups of 4 across every level, counting a group exactly
when its self value is positive and its name index is in range; a
name at several stack positions accumulates (100 and 50 give 150) and
a trailing partial group is silently dropped, not an error. -/
theorem flamebearer_selfmap_sum :
    (∀ (names : List String) (levels : List (List ℕ)) (nm : String),
      nget (selfMap names levels) nm = totalSelf names levels nm) ∧
    nget (selfMap ["f"] [[0,100,100,0],[0,50,50,0]]) "f" = 150 ∧
    selfMap ["f","g"] [[0,100,100,0,0,50,50]] = selfMap ["f","g"] [[0,100,100,0]] ∧
    nget (selfMap ["f","g"] [[0,100,100,0,0,50,50]]) "g" = 0 := by
  refine ⟨?_, by decide, by decide, by decide⟩
  intro names levels nm
  unfold selfMap totalSelf
  rw [nget_foldl]
  simp [nget, dlookup]

theorem strLtb_asymm : ∀ x y : List Char, strLtb x y = true → strLtb y x = false := by
  intro x
  induction x with
  | nil =>
    intro y h
    cases y with
    | nil => simp [strLtb] at h
    | cons b bs => simp [strLtb]
  | cons a as ih =>
    intro y h
    cases y with
    | nil => simp [strLtb] at h
    | cons b bs =>
      simp only [strLtb] at h ⊢
      by_cases hab : a.toNat < b.toNat
      · rw [if_neg (by omega : ¬ b.toNat < a.toNat), if_pos hab]
      · by_cases hba : b.toNat < a.toNat
        · simp [hab, hba] at h
        · simp only [if_neg hab, if_neg hba] at h
          simp [hab, hba, ih bs h]

theorem strLtb_cotrans : ∀ x y z : List Char,
    strLtb x z = true → strLtb x y = true ∨ strLtb y z = true := by
  intro x
  induction x with
  | nil =>
    intro y z h
    cases z with
    | nil => simp [strLtb] at h
    | cons c cs =>
      cases y with
      | nil => right; simp [strLtb]
      | cons b bs => left; simp [strLtb]
  | cons a as ih =>
    intro y z h
    cases z with
    | nil => simp [strLtb] at h
    | cons c cs =>
      cases y with
      | nil => right; simp [strLtb]
      | cons b bs =>
        simp only [strLtb] at h ⊢
        by_cases hab : a.toNat < b.toNat
        · left; simp [hab]
        · by_cases hac : a.toNat < c.toNat
          · right
            simp only [if_pos (by omega : b.toNat < c.toNat)]
          · by_cases hca : c.toNat < a.toNat
            · simp [hac, hca] at h
            · have h' : strLtb as cs = true := by simpa [hac, hca] using h
              by_cases hba : b.toNat < a.toNat
              · right
                simp only [if_pos (by omega : b.toNat < c.toNat)]
              · rcases ih bs cs h' with h1 | h2
                · left
                  simp [hab, hba, h1]
                · right
                  simp [show ¬ b.toNat < c.toNat from by omega,
                    show ¬ c.toNat < b.toNat from by omega, h2]

theorem keyLe_total (a b : ℕ × List Char) : (keyLe a b || keyLe b a) = true := by
  unfold keyLe
  by_cases h1 : a.1 < b.1
  · simp [h1]
  · by_cases h2 : b.1 < a.1
    · simp [h1, h2]
    · simp only [if_neg h1, if_neg h2]
      by_cases hl : strLtb b.2 a.2
      · simp [hl, strLtb_asymm _ _ hl]
      · simp [hl]

theorem keyLe_rank_le (a b : ℕ × List Char) (h : keyLe a b = true) : a.1 ≤ b.1 := by
  by_contra hh
  have hba : b.1 < a.1 := by omega
  rw [keyLe, if_neg (by omega : ¬ a.1 < b.1), if_pos hba] at h
  cases h

theorem keyLe_trans (a b c : ℕ × List Char) (h1 : keyLe a b = true)
    (h2 : keyLe b c = true) : keyLe a c = true := by
  have hab := keyLe_rank_le a b h1
  have hbc := keyLe_rank_le b c h2
  by_cases hac : a.1 < c.1
  · rw [keyLe, if_pos hac]
  · have e0 : a.1 = b.1 ∧ b.1 = c.1 := by omega
    rw [keyLe, if_neg (by omega : ¬ a.1 < b.1), if_neg (by omega : ¬ b.1 < a.1)] at h1
    rw [keyLe, if_neg (by omega : ¬ b.1 < c.1), if_neg (by omega : ¬ c.1 < b.1)] at h2
    rw [keyLe, if_neg hac, if_neg (by omega : ¬ c.1 < a.1)]
    simp only [Bool.not_eq_true'] at h1 h2 ⊢
    by_contra hcc
    have hca : strLtb c.2 a.2 = true := by
      cases hx : strLtb c.2 a.2
      · exact absurd hx hcc
      · rfl
    rcases strLtb_cotrans c.2 b.2 a.2 hca with hx | hx
    · rw [h2] at hx; cases hx
    · rw [h1] at hx; cases hx

theorem resLe_total (a b : SvcResult) : (resLe a b || resLe b a) = true :=
  keyLe_total _ _

theorem resLe_trans (a b c : SvcResult) (h1 : resLe a b = true)
    (h2 : resLe b c = true) : resLe a c = true :=
  keyLe_trans _ _ _ h1 h2

theorem hresLe_total (a b : HealthResult) : (hresLe a b || hresLe b a) = true :=
  keyLe_total _ _

theorem hresLe_trans (a b c : HealthResult) (h1 : hresLe a b = true)
    (h2 : hresLe b c = true) : hresLe a c = true :=
  keyLe_trans _ _ _ h1 h2

/-- Fixture for the report-ordering example. -/
def mkRes (svc sev : String) : SvcResult :=
  ⟨svc, svc, "", sev, 0, 0, 0, 0, 0, 0, 0, [], [], [], none⟩

/-- C6: report ordering is a stable sort by the pair (severity rank,
service identity) ascending — rank 0 for critical/CRITICAL, 1 for
warning/WARNING, 2 for ok/OK — for both the bottleneck resolver and
the health evaluator: the output is a permutation, pairwise ordered by
the key, key-ordered sublists keep their relative order (stability),
and the example services a:critical, b:warning, c:critical come out in
the order a, c, b. -/
theorem report_ordering_stable_sort :
    (rankOf "critical" = 0 ∧ rankOf "warning" = 1 ∧ rankOf "ok" = 2 ∧
      rankOfH "CRITICAL" = 0 ∧ rankOfH "WARNING" = 1 ∧ rankOfH "OK" = 2) ∧
    (∀ rs : List SvcResult, (sortResults rs).Perm rs ∧
      (sortResults rs).Pairwise (fun a b => resLe a b = true)) ∧
    (∀ (rs c : List SvcResult), c.Pairwise (fun a b => resLe a b = true) →
      c.Sublist rs → c.Sublist (sortResults rs)) ∧
    (∀ rs : List HealthResult, (sortHealthResults rs).Perm rs ∧
      (sortHealthResults rs).Pairwise (fun a b => hresLe a b = true)) ∧
    (∀ (rs c : List HealthResult), c.Pairwise (fun a b => hresLe a b = true) →
      c.Sublist rs → c.Sublist (sortHealthResults rs)) ∧
    (sortResults [mkRes "a" "critical", mkRes "b" "warning", mkRes "c" "critical"]).map
        (fun r => r.service) = ["a", "c", "b"] := by
  refine ⟨⟨by decide, by decide, by decide, by decide, by decide, by decide⟩,
    fun rs => ⟨List.mergeSort_perm rs resLe,
      List.sorted_mergeSort resLe_trans resLe_total rs⟩,
    fun rs c hp hs => List.sublist_mergeSort resLe_trans resLe_total hp hs,
    fun rs => ⟨List.mergeSort_perm rs hresLe,
      List.sorted_mergeSort hresLe_trans hresLe_total rs⟩,
    fun rs c hp hs => List.sublist_mergeSort hresLe_trans hresLe_total hp hs,
    ?_⟩
  simp +decide [sortResults, List.mergeSort, List.splitInTwo, List.merge,
    resLe, keyLe, resKey, rankOf, strLtb, mkRes]

theorem report_ordering_stable_sort_witness :
    [mkRes "a" "critical"].Sublist
      (sortResults [mkRes "a" "critical", mkRes "b" "warning"]) :=
  report_ordering_stable_sort.2.2.1 _ _ (by simp) (by simp)

/-- C7: in Mode A health evaluation each metric is checked
independently with the crit cutoff first and contributes at most one
issue (a crit crossing suppresses the warn report for that metric,
never the others), every crossed metric contributes exactly one issue
to the per-service list, and the aggregate status is CRITICAL iff some
issue is CRITICAL, WARNING iff none is CRITICAL and some is WARNING,
and OK iff neither level occurs. -/
theorem health_mode_a_eval :
    (∀ (v : ℚ) (t : WarnCrit) (tag : String),
      (checkMetric v t tag).length ≤ 1 ∧
      (v ≥ t.crit → checkMetric v t tag = [("CRITICAL", tag)]) ∧
      (v < t.crit ∧ v ≥ t.warn → checkMetric v t tag = [("WARNING", tag)]) ∧
      (v < t.crit ∧ v < t.warn → checkMetric v t tag = [])) ∧
    (∀ cpu hp gc th : ℚ,
      ((evalIssues cpu hp gc th).filter (fun i => i.2 == "cpu")).length
          = (if cpu ≥ healthCpuT.crit ∨ cpu ≥ healthCpuT.warn then 1 else 0) ∧
      ((evalIssues cpu hp gc th).filter (fun i => i.2 == "heap")).length
          = (if hp ≥ healthHeapT.crit ∨ hp ≥ healthHeapT.warn then 1 else 0) ∧
      ((evalIssues cpu hp gc th).filter (fun i => i.2 == "gc")).length
          = (if gc ≥ healthGcT.crit ∨ gc ≥ healthGcT.warn then 1 else 0) ∧
      ((evalIssues cpu hp gc th).filter (fun i => i.2 == "threads")).length
          = (if th ≥ healthThreadsT.crit ∨ th ≥ healthThreadsT.warn then 1 else 0)) ∧
    (∀ issues : List (String × String),
      (healthSeverity issues = "CRITICAL" ↔ ∃ m, ("CRITICAL", m) ∈ issues) ∧
      (healthSeverity issues = "WARNING" ↔
        (¬ ∃ m, ("CRITICAL", m) ∈ issues) ∧ ∃ m, ("WARNING", m) ∈ issues) ∧
      (healthSeverity issues = "OK" ↔
        (¬ ∃ m, ("CRITICAL", m) ∈ issues) ∧ ¬ ∃ m, ("WARNING", m) ∈ issues)) ∧
    (∀ (cpu_rate heap_used heap_max gc_rate threads : List (String × ℚ)) (svc : String),
      (evalService cpu_rate heap_used heap_max gc_rate threads svc).severity =
        healthSeverity (evalService cpu_rate heap_used heap_max gc_rate threads svc).issues ∧
      (evalService cpu_rate heap_used heap_max gc_rate threads svc).issues =
        evalIssues (dget cpu_rate svc) (healthHeapPct heap_used heap_max svc)
          (dget gc_rate svc) (dget threads svc)) := by
  refine ⟨?_, ?_, ?_, fun a b c d e svc => ⟨rfl, rfl⟩⟩
  · intro v t tag
    refine ⟨?_, ?_, ?_, ?_⟩
    · unfold checkMetric
      split_ifs <;> simp
    · intro h
      unfold checkMetric
      rw [if_pos h]
    · rintro ⟨h1, h2⟩
      unfold checkMetric
      rw [if_neg (by exact not_le.mpr h1), if_pos h2]
    · rintro ⟨h1, h2⟩
      unfold checkMetric
      rw [if_neg (by exact not_le.mpr h1), if_neg (by exact not_le.mpr h2)]
  · intro cpu hp gc th
    refine ⟨?_, ?_, ?_, ?_⟩ <;>
      (simp only [evalIssues, checkMetric, List.filter_append] <;>
        split_ifs <;> simp_all) <;>
      first
        | linarith
        | (rcases ‹_ ∨ _› with h | h <;> linarith)
  · intro issues
    unfold healthSeverity
    by_cases hc : issues.any fun i => i.1 == "CRITICAL"
    · rw [if_pos hc]
      simp only [List.any_eq_true, beq_iff_eq] at hc
      obtain ⟨i, hi, hieq⟩ := hc
      refine ⟨?_, ?_, ?_⟩
      · simp only [true_iff]
        exact ⟨i.2, by rwa [show ("CRITICAL", i.2) = i from by rw [← hieq]]⟩
      · constructor
        · intro h; exact absurd h (by decide)
        · rintro ⟨hno, _⟩
          exact absurd ⟨i.2, by rwa [show ("CRITICAL", i.2) = i from by rw [← hieq]]⟩ hno
      · constructor
        · intro h; exact absurd h (by decide)
        · rintro ⟨hno, _⟩
          exact absurd ⟨i.2, by rwa [show ("CRITICAL", i.2) = i from by rw [← hieq]]⟩ hno
    · rw [if_neg hc]
      have hnc : ¬ ∃ m, ("CRITICAL", m) ∈ issues := by
        rintro ⟨m, hm⟩
        exact hc (List.any_eq_true.mpr ⟨("CRITICAL", m), hm, by simp⟩)
      by_cases hw : issues.any fun i => i.1 == "WARNING"
      · rw [if_pos hw]
        simp only [List.any_eq_true, beq_iff_eq] at hw
        obtain ⟨i, hi, hieq⟩ := hw
        refine ⟨?_, ?_, ?_⟩
        · constructor
          · intro h; exact absurd h (by decide)
          · intro h; exact absurd h hnc
        · simp only [true_iff]
          exact ⟨hnc, ⟨i.2, by rwa [show ("WARNING", i.2) = i from by rw [← hieq]]⟩⟩
        · constructor
          · intro h; exact absurd h (by decide)
          · rintro ⟨_, hno⟩
            exact absurd ⟨i.2, by rwa [show ("WARNING", i.2) = i from by rw [← hieq]]⟩ hno
      · rw [if_neg hw]
        have hnw : ¬ ∃ m, ("WARNING", m) ∈ issues := by
          rintro ⟨m, hm⟩
          exact hw (List.any_eq_true.mpr ⟨("WARNING", m), hm, by simp⟩)
        refine ⟨?_, ?_, ?_⟩
        · constructor
          · intro h; exact absurd h (by decide)
          · intro h; exact absurd h hnc
        · constructor
          · intro h; exact absurd h (by decide)
          · rintro ⟨_, h⟩; exact absurd h hnw
        · simp [hnc, hnw]

theorem health_mode_a_eval_witness :
    checkMetric 0.9 healthCpuT "cpu" = [("CRITICAL", "cpu")] ∧
      checkMetric 0.6 healthCpuT "cpu" = [("WARNING", "cpu")] ∧
      checkMetric 0.1 healthCpuT "cpu" = [] :=
  ⟨(health_mode_a_eval.1 0.9 healthCpuT "cpu").2.1 (by norm_num [healthCpuT]),
   (health_mode_a_eval.1 0.6 healthCpuT "cpu").2.2.1
     ⟨by norm_num [healthCpuT], by norm_num [healthCpuT]⟩,
   (health_mode_a_eval.1 0.1 healthCpuT "cpu").2.2.2
     ⟨by norm_num [healthCpuT], by norm_num [healthCpuT]⟩⟩

theorem getThreshold_setThreshold (th : Thresholds) (k key : String) (v : ℚ)
    (h : k ≠ key) :
    getThreshold (setThreshold th k v) key = getThreshold th key := by
  unfold setThreshold
  split_ifs <;> (unfold getThreshold; split_ifs <;> simp_all)

theorem foldl_thresholds_error (pf : String → Option ℚ) (toks : List (List Char))
    (th : Thresholds) (h : ∃ tok ∈ toks, fatalTok pf tok) :
    ∃ msg, toks.foldlM (applyTok pf) th = Except.error msg := by
  induction toks generalizing th with
  | nil => simp at h
  | cons t rest ih =>
    rcases h with ⟨tok, htok, hfat⟩
    rcases List.mem_cons.mp htok with rfl | hmem
    · obtain ⟨k, v, hsp, hk, hv⟩ := hfat
      refine ⟨"could not convert string to float: " ++ String.mk v, ?_⟩
      simp only [List.foldlM_cons, applyTok, hsp, if_pos hk, hv]
      rfl
    · cases happ : applyTok pf th t with
      | error e =>
        exact ⟨e, by simp only [List.foldlM_cons, happ]; rfl⟩
      | ok th' =>
        obtain ⟨msg, hmsg⟩ := ih th' ⟨tok, hmem, hfat⟩
        exact ⟨msg, by simp only [List.foldlM_cons, happ]; simpa using hmsg⟩

theorem foldl_thresholds_id (pf : String → Option ℚ) (toks : List (List Char))
    (th : Thresholds) (h : ∀ tok ∈ toks, ¬ tokKnown tok) :
    toks.foldlM (applyTok pf) th = Except.ok th := by
  induction toks with
  | nil => rfl
  | cons t rest ih =>
    have happ : applyTok pf th t = Except.ok th := by
      unfold applyTok
      cases hsp : splitEq t with
      | none => rfl
      | some kv =>
        obtain ⟨k, v⟩ := kv
        have hk : String.mk k ∉ thresholdKeys :=
          fun hk => h t (List.mem_cons_self t rest) ⟨k, v, hsp, hk⟩
        simp [hk]
    simp only [List.foldlM_cons, happ]
    simpa using ih fun tok hm => h tok (List.mem_cons_of_mem t hm)

theorem foldl_thresholds_untouched (pf : String → Option ℚ)
    (toks : List (List Char)) (th res : Thresholds) (key : String)
    (hres : toks.foldlM (applyTok pf) th = Except.ok res)
    (h : ∀ tok ∈ toks, ¬ tokSets key tok) :
    getThreshold res key = getThreshold th key := by
  induction toks generalizing th with
  | nil =>
    simp only [List.foldlM_nil] at hres
    cases hres
    rfl
  | cons t rest ih =>
    cases happ : applyTok pf th t with
    | error e =>
      rw [List.foldlM_cons, happ] at hres
      exact absurd (show Except.error e = Except.ok res from hres) (by simp)
    | ok th' =>
      rw [List.foldlM_cons, happ] at hres
      have hres' : List.foldlM (applyTok pf) th' rest = Except.ok res := hres
      have hstep : getThreshold th' key = getThreshold th key := by
        unfold applyTok at happ
        cases hsp : splitEq t with
        | none =>
          simp only [hsp] at happ
          obtain rfl : th = th' := by simpa using happ
          rfl
        | some kv =>
          obtain ⟨k, v⟩ := kv
          simp only [hsp] at happ
          by_cases hk : String.mk k ∈ thresholdKeys
          · rw [if_pos hk] at happ
            cases hpf : pf (String.mk v) with
            | none =>
              rw [hpf] at happ
              exact absurd happ (by simp)
            | some x =>
              rw [hpf] at happ
              obtain rfl : setThreshold th (String.mk k) x = th' := by
                simpa using happ
              exact getThreshold_setThreshold th (String.mk k) key x
                fun he => h t (List.mem_cons_self t rest) ⟨k, v, hsp, he⟩
          · rw [if_neg hk] at happ
            obtain rfl : th = th' := by simpa using happ
            rfl
      exact (ih th' hres' fun tok hm => h tok (List.mem_cons_of_mem t hm)).trans hstep

/-- C8 counterexample: the claim "any unparsable value fails the whole
evaluation" is false as stated — the token `foo=abc` has a non-numeric
value, yet parsing succeeds with the defaults, because the value is
only handed to `float` after the key is found in the defaults table. -/
theorem threshold_unknown_key_bad_value_no_error :
    pyFloat "abc" = none ∧
      parse_thresholds pyFloat "foo=abc" = Except.ok DEFAULT_THRESHOLDS :=
  ⟨by decide, by rfl⟩

/-- C8 amended: unknown keys are ignored, and an unparsable
(non-numeric) value for a KNOWN threshold key fails the whole
evaluation with a numeric parse error rather than being skipped per
key. -/
theorem threshold_bad_value_fatal (pf : String → Option ℚ) (s : String)
    (h : ∃ tok ∈ pyTokens s.data, fatalTok pf tok) :
    ∃ msg, parse_thresholds pf s = Except.error msg :=
  foldl_thresholds_error pf (pyTokens s.data) DEFAULT_THRESHOLDS h

theorem threshold_bad_value_fatal_witness :
    ∃ msg, parse_thresholds pyFloat "cpu=abc" = Except.error msg :=
  threshold_bad_value_fatal pyFloat "cpu=abc"
    ⟨['c','p','u','=','a','b','c'], by decide, by decide⟩

/-- C9: a token whose key is not one of the six known threshold keys
never raises even when its value is non-numeric (the value is parsed
only after the key is found in the defaults table, so the result does
not even depend on the float parser), a token containing no `=` is
silently skipped, and the returned thresholds equal the defaults on
every key no token overrode. -/
theorem threshold_unknown_keys_ignored :
    (∀ (pf : String → Option ℚ) (s : String),
      (∀ tok ∈ pyTokens s.data, ¬ tokKnown tok) →
      parse_thresholds pf s = Except.ok DEFAULT_THRESHOLDS) ∧
    (∀ (pf : String → Option ℚ) (th : Thresholds) (tok : List Char),
      splitEq tok = none → applyTok pf th tok = Except.ok th) ∧
    (∀ (pf : String → Option ℚ) (s : String) (res : Thresholds),
      parse_thresholds pf s = Except.ok res →
      ∀ key ∈ thresholdKeys,
        (∀ tok ∈ pyTokens s.data, ¬ tokSets key tok) →
        getThreshold res key = getThreshold DEFAULT_THRESHOLDS key) := by
  refine ⟨?_, ?_, ?_⟩
  · intro pf s h
    exact foldl_thresholds_id pf (pyTokens s.data) DEFAULT_THRESHOLDS h
  · intro pf th tok h
    unfold applyTok
    rw [h]
  · intro pf s res hres key _hkey h
    exact foldl_thresholds_untouched pf (pyTokens s.data) DEFAULT_THRESHOLDS res key hres h

theorem threshold_unknown_keys_ignored_witness :
    parse_thresholds pyFloat "bogus=@@ noeq" = Except.ok DEFAULT_THRESHOLDS :=
  threshold_unknown_keys_ignored.1 pyFloat "bogus=@@ noeq" (by decide)

theorem analyzeService_healthy_iff_ok (th : Thresholds) (snap : Snapshots)
    (tops : ProfileTops) (svcMap : String → String) (svc : String) :
    ((analyzeService th snap tops svcMap svc).verdict = "healthy" ↔
      (analyzeService th snap tops svcMap svc).severity = "ok") := by
  have hv := analyzeService_verdict th snap tops svcMap svc
  have hs := analyzeService_severity th snap tops svcMap svc
  rcases hsig : serviceSignals th snap tops svc with _ | ⟨p, rest⟩
  · rw [hsig] at hv hs
    rw [hv, hs]
    simp
  · rw [hsig] at hv hs
    simp only [] at hv hs
    have hmem : p ∈ signalsOf th (dget snap.cpu svc) (heapPctOf snap svc)
        (dget snap.gc svc) (avgLatOf snap svc) tops.cpu_top tops.mem_top
        tops.mutex_top := by
      have hsig2 := hsig
      unfold serviceSignals at hsig2
      rw [hsig2]
      exact List.mem_cons_self p rest
    have hp5 := signalsOf_kinds th _ _ _ _ _ _ _ p hmem
    have hvne : (analyzeService th snap tops svcMap svc).verdict ≠ "healthy" := by
      rw [hv]
      rcases hp5 with k | k | k | k | k <;> rw [k] <;> decide
    have hsne : (analyzeService th snap tops svcMap svc).severity ≠ "ok" := by
      rw [hs]
      split_ifs <;> decide
    exact ⟨fun hh => absurd hh hvne, fun hh => absurd hh hsne⟩

theorem analyzeService_severity_cases (th : Thresholds) (snap : Snapshots)
    (tops : ProfileTops) (svcMap : String → String) (svc : String) :
    (analyzeService th snap tops svcMap svc).severity = "ok" ∨
      (analyzeService th snap tops svcMap svc).severity = "critical" ∨
      (analyzeService th snap tops svcMap svc).severity = "warning" := by
  have hs := analyzeService_severity th snap tops svcMap svc
  rcases hsig : serviceSignals th snap tops svc with _ | ⟨p, rest⟩ <;> rw [hsig] at hs <;>
    simp only [] at hs
  · left; exact hs
  · rw [hs]
    split_ifs
    · right; left; rfl
    · right; right; rfl

theorem countP_three_partition {α : Type} (p q r : α → Bool) (l : List α)
    (h : ∀ x ∈ l, (p x = true ∧ q x = false ∧ r x = false) ∨
      (p x = false ∧ q x = true ∧ r x = false) ∨
      (p x = false ∧ q x = false ∧ r x = true)) :
    l.countP p + l.countP q + l.countP r = l.length := by
  induction l with
  | nil => simp
  | cons a rest ih =>
    have ha := h a (List.mem_cons_self a rest)
    have hr := ih fun x hx => h x (List.mem_cons_of_mem a hx)
    rcases ha with ⟨h1, h2, h3⟩ | ⟨h1, h2, h3⟩ | ⟨h1, h2, h3⟩ <;>
      simp [List.countP_cons, h1, h2, h3] <;> omega

/-- C10: in every report produced by the resolver, a service's verdict
is `healthy` exactly when its severity is `ok` (any fired signal
yields warning or critical), so the summary's critical, warning and
healthy counts always add up to the total number of services. -/
theorem healthy_iff_ok_and_counts (th : Thresholds) (snap : Snapshots)
    (tops : String → ProfileTops) (svcMap : String → String) :
    (∀ r ∈ analyze th snap tops svcMap,
      (r.verdict = "healthy" ↔ r.severity = "ok")) ∧
    summaryCritical (analyze th snap tops svcMap)
        + summaryWarning (analyze th snap tops svcMap)
        + summaryHealthy (analyze th snap tops svcMap)
      = (analyze th snap tops svcMap).length := by
  have hmem : ∀ r ∈ analyze th snap tops svcMap,
      ∃ svc, r = analyzeService th snap (tops svc) svcMap svc := by
    intro r hr
    unfold analyze at hr
    simp only [sortResults, List.mem_mergeSort, List.mem_map] at hr
    obtain ⟨svc, _, rfl⟩ := hr
    exact ⟨svc, rfl⟩
  constructor
  · intro r hr
    obtain ⟨svc, rfl⟩ := hmem r hr
    exact analyzeService_healthy_iff_ok th snap (tops svc) svcMap svc
  · unfold summaryCritical summaryWarning summaryHealthy
    apply countP_three_partition
    intro x hx
    obtain ⟨svc, rfl⟩ := hmem x hx
    have hiff := analyzeService_healthy_iff_ok th snap (tops svc) svcMap svc
    have htri := analyzeService_severity_cases th snap (tops svc) svcMap svc
    rcases htri with h | h | h
    · right; right
      have hh : (analyzeService th snap (tops svc) svcMap svc).verdict = "healthy" :=
        hiff.mpr h
      refine ⟨?_, ?_, ?_⟩ <;> simp [h, hh]
    · left
      have hh : (analyzeService th snap (tops svc) svcMap svc).verdict ≠ "healthy" := by
        intro hcon
        rw [hiff.mp hcon] at h
        exact absurd h (by decide)
      refine ⟨?_, ?_, ?_⟩ <;> simp [h, hh]
    · right; left
      have hh : (analyzeService th snap (tops svc) svcMap svc).verdict ≠ "healthy" := by
        intro hcon
        rw [hiff.mp hcon] at h
        exact absurd h (by decide)
      refine ⟨?_, ?_, ?_⟩ <;> simp [h, hh]

theorem healthy_iff_ok_and_counts_witness :
    summaryCritical (analyze ⟨1,1,1,1,1,1⟩ ⟨[("a",1)],[],[],[],[],[],[],[],[]⟩
        (fun _ => ⟨[],[],[]⟩) (fun s => s))
      + summaryWarning (analyze ⟨1,1,1,1,1,1⟩ ⟨[("a",1)],[],[],[],[],[],[],[],[]⟩
        (fun _ => ⟨[],[],[]⟩) (fun s => s))
      + summaryHealthy (analyze ⟨1,1,1,1,1,1⟩ ⟨[("a",1)],[],[],[],[],[],[],[],[]⟩
        (fun _ => ⟨[],[],[]⟩) (fun s => s))
      = (analyze ⟨1,1,1,1,1,1⟩ ⟨[("a",1)],[],[],[],[],[],[],[],[]⟩
        (fun _ => ⟨[],[],[]⟩) (fun s => s)).length :=
  (healthy_iff_ok_and_counts _ _ _ _).2
